import Mathlib

/-!
# Shallow embedding of webtranscat (`src/main.rs`)

webtranscat is a command-line bridge between local stdin/stdout and one
remote WebTransport session.  `main` spawns up to three tokio tasks over a
shared session — a datagram receive loop, a unidirectional-stream receive
loop, and (unless `--unidirectional`) a stdin forward loop — and waits with
`futures::future::select_all` for the first task to finish.

Each loop is embedded as a function over the finite list of results that its
blocking session calls return in order (a prefix of the infinite interaction:
an exhausted list means the loop is still suspended waiting on the session).
The stdin forward loop is embedded down to the byte level, including the
UTF-8 validation that `tokio`'s `read_line` performs when appending to a
`String` and the Unicode-whitespace trimming of `str::trim_end`.
Log-macro calls that a loop makes are collected as a list of tags; whether
they are actually emitted is decided by the logger configuration model
(`mainLogConfig`), which embeds `logging::setup_env_logger` and the
early-log / quiet handling at the top of `main`.
-/

namespace Webtranscat

/-- The parsed command line (struct `Args` in `main.rs`; the URL is opaque
and omitted — no claim depends on its value). -/
structure Args where
  verbosity : Nat
  quiet : Bool
  insecure : Bool
  unidirectional : Bool
  one_message : Bool
deriving DecidableEq

/-! ## Logging model (`mod logging` and the top of `main`) -/

/-- `log::Level`, ordered from most to least severe. -/
inductive Level
  | error
  | warn
  | info
  | debug
  | trace
deriving DecidableEq

/-- The state of the global logger after startup.  `uninitialized` means no
logger was ever installed, so every `log` macro call is a no-op.
`fromRustLog` is `env_logger::init()` driven by the `RUST_LOG` variable; the
carried flag records whether that environment value lets error-level records
through (its parsing is external to this crate).  `filtered lvl` is the
builder path: module `webtranscat` filtered at `lvl`, everything else at
`Warn`. -/
inductive LogConfig
  | uninitialized
  | fromRustLog (errorEnabled : Bool)
  | filtered (lvl : Level)
deriving DecidableEq

/-- The `match ll` table inside `setup_env_logger`. -/
def levelForVerbosity : Nat → Level
  | 0 => .warn
  | 1 => .info
  | 2 => .debug
  | _ => .trace

/-- `logging::setup_env_logger`: if `RUST_LOG` is set (modelled as
`some errorEnabled`), `env_logger::init()` is used and `-v` is ignored;
otherwise the level follows the verbosity count. -/
def setup_env_logger (rustLog : Option Bool) (ll : Nat) : LogConfig :=
  match rustLog with
  | some errorEnabled => .fromRustLog errorEnabled
  | none => .filtered (levelForVerbosity ll)

/-- Logger configuration produced by `main` lines 91–103: when
`WEBTRANSCAT_EARLY_LOG` is set the logger is installed with `ll = 0` before
the arguments are even parsed; otherwise it is installed from the parsed
verbosity unless `-q` was given, in which case no logger is installed. -/
def mainLogConfig (earlyLog : Bool) (rustLog : Option Bool)
    (quiet : Bool) (verbosity : Nat) : LogConfig :=
  if earlyLog then setup_env_logger rustLog 0
  else if quiet then .uninitialized
  else setup_env_logger rustLog verbosity

/-- Whether an `error!` record from this crate reaches the diagnostic
stream.  Any installed `filtered` configuration passes error records (every
filter level admits `Error`); an uninitialized logger drops everything. -/
def emitsErrorDiagnostics : LogConfig → Bool
  | .uninitialized => false
  | .fromRustLog errorEnabled => errorEnabled
  | .filtered _ => true

/-! ## Receive loops -/

/-- One result of `session.read_datagram().await`. -/
inductive DgEvent
  | ok (data : List Nat)
  | err
deriving DecidableEq

/-- The result of `stream.read_to_end(usize::MAX).await` on one accepted
stream.  On success the transport may have delivered the stream in several
writes (`chunks`); `read_to_end` returns their concatenation.  `err` is a
mid-stream failure (reset, …): no data is returned at all. -/
inductive ReadResult
  | ok (chunks : List (List Nat))
  | err
deriving DecidableEq

/-- One result of `session.accept_uni().await`. -/
inductive StEvent
  | acceptOk (r : ReadResult)
  | acceptErr
deriving DecidableEq

/-- Why a receive loop's `loop` ended: `completed` is a `break` after a
message under `--one-message`; `errored` is a `break` on a session-level
failure.  (Either way the tokio task itself returns `()`.) -/
inductive LoopExit
  | completed
  | errored
deriving DecidableEq

/-- An `error!` call site, as a tag. -/
inductive LogMsg
  | datagramError
  | streamReadError
  | streamAcceptError
  | sendError
  | stdinReadError
deriving DecidableEq

/-- Result of running a receive loop over a finite prefix of session
results: the `write_all` payloads to stdout in order (each already
newline-terminated), the `error!` calls made, and how the `loop` ended
(`none`: the prefix ran out, the loop is still suspended). -/
structure LoopRes where
  out : List (List Nat)
  log : List LogMsg
  exit : Option LoopExit
deriving DecidableEq

/-- Datagram receive loop (`main.rs` 125–146): on `Ok(data)` write
`data` then `"\n"`, flush, and `break` if `--one-message`; on `Err` log and
`break`. -/
def datagramLoop (oneMessage : Bool) : List DgEvent → LoopRes
  | [] => ⟨[], [], none⟩
  | .ok data :: rest =>
    if oneMessage then ⟨[data ++ [10]], [], some .completed⟩
    else
      let r := datagramLoop oneMessage rest
      ⟨(data ++ [10]) :: r.out, r.log, r.exit⟩
  | .err :: _ => ⟨[], [.datagramError], some .errored⟩

/-- Stream receive loop (`main.rs` 155–187): on accept success, read the
whole stream; on read success write the full contents then `"\n"` and
`break` if `--one-message`; on read failure log and continue accepting; on
accept failure log and `break`. -/
def streamLoop (oneMessage : Bool) : List StEvent → LoopRes
  | [] => ⟨[], [], none⟩
  | .acceptOk (.ok chunks) :: rest =>
    if oneMessage then ⟨[chunks.flatten ++ [10]], [], some .completed⟩
    else
      let r := streamLoop oneMessage rest
      ⟨(chunks.flatten ++ [10]) :: r.out, r.log, r.exit⟩
  | .acceptOk .err :: rest =>
    let r := streamLoop oneMessage rest
    ⟨r.out, .streamReadError :: r.log, r.exit⟩
  | .acceptErr :: _ => ⟨[], [.streamAcceptError], some .errored⟩

/-! ## Stdin forward loop

`BufReader::read_line` reads raw bytes up to and including the first `0x0A`
(or end of input), then requires that segment to be valid UTF-8 before
appending it to the `String`; invalid data is an `InvalidData` error, which
the loop at `main.rs` 222–225 logs and treats as fatal to the loop.
`line.trim_end()` then removes trailing `char::is_whitespace` characters
(the Unicode White_Space set, which contains the line terminator). -/

/-- Is `b` a UTF-8 continuation byte (`0b10xxxxxx`)? -/
def isCont (b : Nat) : Bool := 0x80 ≤ b && b < 0xC0

/-- Strict UTF-8 validation and decoding to Unicode scalar values, exactly
as Rust's `str` validity (shortest form enforced, surrogates and values
above `0x10FFFF` rejected).  `none` means the byte list is not valid
UTF-8. -/
def utf8Decode? : List Nat → Option (List Nat)
  | [] => some []
  | b :: bs =>
    if b < 0x80 then
      (utf8Decode? bs).map (b :: ·)
    else if 0xC2 ≤ b && b ≤ 0xDF then
      match bs with
      | b2 :: bs2 =>
        if isCont b2 then
          (utf8Decode? bs2).map (((b - 0xC0) * 0x40 + (b2 - 0x80)) :: ·)
        else none
      | [] => none
    else if 0xE0 ≤ b && b ≤ 0xEF then
      match bs with
      | b2 :: b3 :: bs3 =>
        if (if b = 0xE0 then 0xA0 ≤ b2 && b2 ≤ 0xBF
            else if b = 0xED then 0x80 ≤ b2 && b2 ≤ 0x9F
            else isCont b2) && isCont b3 then
          (utf8Decode? bs3).map
            (((b - 0xE0) * 0x1000 + (b2 - 0x80) * 0x40 + (b3 - 0x80)) :: ·)
        else none
      | _ => none
    else if 0xF0 ≤ b && b ≤ 0xF4 then
      match bs with
      | b2 :: b3 :: b4 :: bs4 =>
        if (if b = 0xF0 then 0x90 ≤ b2 && b2 ≤ 0xBF
            else if b = 0xF4 then 0x80 ≤ b2 && b2 ≤ 0x8F
            else isCont b2) && isCont b3 && isCont b4 then
          (utf8Decode? bs4).map
            (((b - 0xF0) * 0x40000 + (b2 - 0x80) * 0x1000
              + (b3 - 0x80) * 0x40 + (b4 - 0x80)) :: ·)
        else none
      | _ => none
    else none

/-- UTF-8 encoding of one Unicode scalar value. -/
def encodeChar (c : Nat) : List Nat :=
  if c < 0x80 then [c]
  else if c < 0x800 then [0xC0 + c / 0x40, 0x80 + c % 0x40]
  else if c < 0x10000 then
    [0xE0 + c / 0x1000, 0x80 + c / 0x40 % 0x40, 0x80 + c % 0x40]
  else
    [0xF0 + c / 0x40000, 0x80 + c / 0x1000 % 0x40,
     0x80 + c / 0x40 % 0x40, 0x80 + c % 0x40]

/-- UTF-8 encoding of a character list (`str::as_bytes` of the string the
characters spell). -/
def utf8Encode (cs : List Nat) : List Nat := (cs.map encodeChar).flatten

/-- Rust `char::is_whitespace`: the Unicode White_Space property. -/
def isWhitespaceChar (c : Nat) : Bool :=
  c = 0x09 || c = 0x0A || c = 0x0B || c = 0x0C || c = 0x0D || c = 0x20 ||
  c = 0x85 || c = 0xA0 || c = 0x1680 || (0x2000 ≤ c && c ≤ 0x200A) ||
  c = 0x2028 || c = 0x2029 || c = 0x202F || c = 0x205F || c = 0x3000

/-- `str::trim_end` on the decoded characters: drop the longest whitespace
suffix. -/
def trimEnd (cs : List Nat) : List Nat :=
  (cs.reverse.dropWhile isWhitespaceChar).reverse

/-- Split the whole local input into the successive segments that
`read_line` returns: each ends with `0x0A` except possibly the last.
(Multi-byte UTF-8 sequences never contain `0x0A`, so splitting at the byte
level is exactly what `read_until(b'\n', ..)` does.) -/
def splitLines (input : List Nat) : List (List Nat) :=
  input.foldr
    (fun b acc =>
      if b = 10 then [10] :: acc
      else
        match acc with
        | [] => [[b]]
        | l :: ls => (b :: l) :: ls)
    []

/-- How the stdin forward `loop` ended: `read_line` returned `Ok(0)` (end
of input) or an error (e.g. invalid UTF-8 in the line). -/
inductive StdinExit
  | eof
  | readErr
deriving DecidableEq

/-- Result of the stdin forward loop: the payloads passed to
`send_datagram` in order (sent or attempted — a send failure is only
logged), the `error!` calls, and how the loop ended. -/
structure StdinRes where
  sends : List (List Nat)
  log : List LogMsg
  exit : StdinExit
deriving DecidableEq

/-- Stdin forward loop body over pre-split lines (`main.rs` 200–227).
`oks` are the successive results of `session.send_datagram` (`true` = `Ok`);
a failed send is logged and the loop continues. -/
def stdinLinesGo : List (List Nat) → List Bool → StdinRes
  | [], _ => ⟨[], [], .eof⟩
  | line :: rest, oks =>
    match utf8Decode? line with
    | none => ⟨[], [.stdinReadError], .readErr⟩
    | some cs =>
      let r := stdinLinesGo rest oks.tail
      ⟨utf8Encode (trimEnd cs) :: r.sends,
       (if oks.headD true then [] else [.sendError]) ++ r.log,
       r.exit⟩

/-- Stdin forward loop (`main.rs` 195–228) over the raw bytes presented on
local input. -/
def stdinLoop (input : List Nat) (oks : List Bool) : StdinRes :=
  stdinLinesGo (splitLines input) oks

/-! ## Multiplexer / termination (`main.rs` 117, 191–195, 231–235) -/

/-- Which tasks `main` spawns (`main.rs` 117–229): the receive loops
always, the stdin forward loop only when `--unidirectional` is absent. -/
inductive TaskKind
  | datagramRecv
  | streamRecv
  | stdinForward
deriving DecidableEq

/-- The `handles` vector built by `main`. -/
def spawnedTasks (args : Args) : List TaskKind :=
  [.datagramRecv, .streamRecv] ++
    (if args.unidirectional then [] else [.stdinForward])

/-- All payloads the process passes to `session.send_datagram` during a
run: no task but the stdin forward loop ever sends. -/
def sentDatagrams (args : Args) (stdinBytes : List Nat)
    (oks : List Bool) : List (List Nat) :=
  if args.unidirectional then [] else (stdinLoop stdinBytes oks).sends

/-- The session-side inputs of one run. -/
structure RunInputs where
  dgEvents : List DgEvent
  stEvents : List StEvent
  stdinBytes : List Nat
  sendOks : List Bool
deriving DecidableEq

/-- Does some spawned task finish on these inputs?  The receive loops
finish exactly when their embedding reports an exit; the stdin loop always
finishes on a finite input (end of input at the latest). -/
def loopFinishes (args : Args) (inp : RunInputs) : Bool :=
  (datagramLoop args.one_message inp.dgEvents).exit.isSome ||
  (streamLoop args.one_message inp.stEvents).exit.isSome ||
  !args.unidirectional

/-- Process exit code (`None`: the process never terminates because every
spawned task is still suspended).  Startup failure (client construction,
logger installation, `connect`) is propagated with `?` from `main`, hence a
non-zero exit.  After startup, `select_all(handles)` yields the first
task's join result; every spawned task has output type `()`, so barring a
panic the joined value is `Ok(())`, `result?` succeeds, and `main` returns
`Ok(())` — exit code `0` — no matter why that first task's loop ended. -/
def processExit (startupOk : Bool) (args : Args) (inp : RunInputs) :
    Option Nat :=
  if !startupOk then some 1
  else if loopFinishes args inp then some 0
  else none

/-! ## Interleaved execution of the two receive loops

For claims about what is on stdout when the process exits, the two receive
loops and the exit of `main` are run as an interleaving: a small-step
relation in which either loop consumes its next session result, and the
process may exit once some task has finished.  tokio gives no ordering
between distinct tasks, and between a task's terminal `break` and `main`
observing it through `select_all` the other tasks keep running. -/

/-- Which receive loop wrote a given stdout message. -/
inductive Channel
  | dgram
  | stream
deriving DecidableEq

/-- Joint state of the two receive loops and the process. -/
structure Sys where
  dgPend : List DgEvent
  stPend : List StEvent
  dgDone : Bool
  stDone : Bool
  output : List (Channel × List Nat)
  exited : Bool
deriving DecidableEq

/-- One scheduler step under `--one-message = om`. -/
inductive SysStep (om : Bool) : Sys → Sys → Prop
  | dgRecv (s : Sys) (d : List Nat) (rest : List DgEvent) :
      s.exited = false → s.dgDone = false → s.dgPend = .ok d :: rest →
      SysStep om s
        { s with dgPend := rest,
                 output := s.output ++ [(.dgram, d ++ [10])],
                 dgDone := om }
  | dgErr (s : Sys) (rest : List DgEvent) :
      s.exited = false → s.dgDone = false → s.dgPend = .err :: rest →
      SysStep om s { s with dgPend := rest, dgDone := true }
  | stRecv (s : Sys) (chunks : List (List Nat)) (rest : List StEvent) :
      s.exited = false → s.stDone = false →
      s.stPend = .acceptOk (.ok chunks) :: rest →
      SysStep om s
        { s with stPend := rest,
                 output := s.output ++ [(.stream, chunks.flatten ++ [10])],
                 stDone := om }
  | stReadErr (s : Sys) (rest : List StEvent) :
      s.exited = false → s.stDone = false →
      s.stPend = .acceptOk .err :: rest →
      SysStep om s { s with stPend := rest }
  | stAcceptErr (s : Sys) (rest : List StEvent) :
      s.exited = false → s.stDone = false → s.stPend = .acceptErr :: rest →
      SysStep om s { s with stPend := rest, stDone := true }
  | procExit (s : Sys) :
      s.exited = false → (s.dgDone = true ∨ s.stDone = true) →
      SysStep om s { s with exited := true }

/-- Reachability under the scheduler. -/
def SysReach (om : Bool) : Sys → Sys → Prop :=
  Relation.ReflTransGen (SysStep om)

/-- The state at process start: both receive loops running, nothing
written. -/
def startSys (dg : List DgEvent) (st : List StEvent) : Sys :=
  ⟨dg, st, false, false, [], false⟩

/-- How many of the written stdout messages came from channel `ch`. -/
def outCount (ch : Channel) (out : List (Channel × List Nat)) : Nat :=
  (out.filter (fun p => p.1 = ch)).length

/-- Invariant of the `--one-message` scheduler: a receive loop that is
still running has not written yet, and no loop ever writes twice. -/
def SysInv (s : Sys) : Prop :=
  (s.dgDone = false → outCount .dgram s.output = 0) ∧
  outCount .dgram s.output ≤ 1 ∧
  (s.stDone = false → outCount .stream s.output = 0) ∧
  outCount .stream s.output ≤ 1

/-! ## Helper lemmas -/

theorem stdinLinesGo_cons_valid (line : List Nat) (rest : List (List Nat))
    (oks : List Bool) (cs : List Nat) (h : utf8Decode? line = some cs) :
    stdinLinesGo (line :: rest) oks =
      ⟨utf8Encode (trimEnd cs) :: (stdinLinesGo rest oks.tail).sends,
       (if oks.headD true then [] else [.sendError]) ++
         (stdinLinesGo rest oks.tail).log,
       (stdinLinesGo rest oks.tail).exit⟩ := by
  simp only [stdinLinesGo, h]

theorem stdinLinesGo_cons_invalid (line : List Nat)
    (rest : List (List Nat)) (oks : List Bool)
    (h : utf8Decode? line = none) :
    stdinLinesGo (line :: rest) oks = ⟨[], [.stdinReadError], .readErr⟩ := by
  simp only [stdinLinesGo, h]

/-- What the stdin forward loop sends and why it stops do not depend on
whether the individual `send_datagram` calls succeed. -/
theorem stdinLinesGo_indep (lines : List (List Nat)) :
    ∀ oks oks' : List Bool,
      (stdinLinesGo lines oks).sends = (stdinLinesGo lines oks').sends ∧
      (stdinLinesGo lines oks).exit = (stdinLinesGo lines oks').exit := by
  induction lines with
  | nil => intro oks oks'; exact ⟨rfl, rfl⟩
  | cons line rest ih =>
    intro oks oks'
    cases h : utf8Decode? line with
    | none => rw [stdinLinesGo_cons_invalid line rest oks h,
        stdinLinesGo_cons_invalid line rest oks' h]; exact ⟨rfl, rfl⟩
    | some cs =>
      rw [stdinLinesGo_cons_valid line rest oks cs h,
        stdinLinesGo_cons_valid line rest oks' cs h]
      exact ⟨by simp [(ih oks.tail oks'.tail).1], (ih oks.tail oks'.tail).2⟩

theorem utf8Encode_append (a b : List Nat) :
    utf8Encode (a ++ b) = utf8Encode a ++ utf8Encode b := by
  simp [utf8Encode]

/-- Decomposition used by `trimEnd`: every character list is its trimmed
part followed by the whitespace suffix that was trimmed away. -/
theorem trimEnd_decomp (cs : List Nat) :
    cs = trimEnd cs ++ (cs.reverse.takeWhile isWhitespaceChar).reverse ∧
    ((cs.reverse.takeWhile isWhitespaceChar).reverse).all isWhitespaceChar
      = true := by
  constructor
  · conv_lhs => rw [← cs.reverse_reverse,
      ← List.takeWhile_append_dropWhile (p := isWhitespaceChar)
        (l := cs.reverse)]
    rw [List.reverse_append]
    rfl
  · rw [List.all_eq_true]
    intro x hx
    exact List.mem_takeWhile_imp (List.mem_reverse.mp hx)

/-- Trimming a whitespace-only character list leaves nothing. -/
theorem trimEnd_all_whitespace (cs : List Nat)
    (h : cs.all isWhitespaceChar = true) : trimEnd cs = [] := by
  have : cs.reverse.dropWhile isWhitespaceChar = [] := by
    rw [List.dropWhile_eq_nil_iff]
    intro x hx
    exact (List.all_eq_true.mp h) x (List.mem_reverse.mp hx)
  simp [trimEnd, this]

theorem utf8Encode_cons (c : Nat) (cs : List Nat) :
    utf8Encode (c :: cs) = encodeChar c ++ utf8Encode cs := rfl

theorem utf8Decode?_one (b : Nat) :
    utf8Decode? [b] =
      (if b < 0x80 then (utf8Decode? []).map (b :: ·)
       else if 0xC2 ≤ b && b ≤ 0xDF then none
       else if 0xE0 ≤ b && b ≤ 0xEF then none
       else if 0xF0 ≤ b && b ≤ 0xF4 then none
       else none) := by rfl

theorem utf8Decode?_two (b b2 : Nat) :
    utf8Decode? [b, b2] =
      (if b < 0x80 then (utf8Decode? [b2]).map (b :: ·)
       else if 0xC2 ≤ b && b ≤ 0xDF then
         if isCont b2 then
           (utf8Decode? []).map (((b - 0xC0) * 0x40 + (b2 - 0x80)) :: ·)
         else none
       else if 0xE0 ≤ b && b ≤ 0xEF then none
       else if 0xF0 ≤ b && b ≤ 0xF4 then none
       else none) := by rfl

theorem utf8Decode?_three (b b2 b3 : Nat) :
    utf8Decode? [b, b2, b3] =
      (if b < 0x80 then (utf8Decode? [b2, b3]).map (b :: ·)
       else if 0xC2 ≤ b && b ≤ 0xDF then
         if isCont b2 then
           (utf8Decode? [b3]).map (((b - 0xC0) * 0x40 + (b2 - 0x80)) :: ·)
         else none
       else if 0xE0 ≤ b && b ≤ 0xEF then
         if (if b = 0xE0 then 0xA0 ≤ b2 && b2 ≤ 0xBF
             else if b = 0xED then 0x80 ≤ b2 && b2 ≤ 0x9F
             else isCont b2) && isCont b3 then
           (utf8Decode? []).map
             (((b - 0xE0) * 0x1000 + (b2 - 0x80) * 0x40 + (b3 - 0x80)) :: ·)
         else none
       else if 0xF0 ≤ b && b ≤ 0xF4 then none
       else none) := by rfl

theorem utf8Decode?_four (b b2 b3 b4 : Nat) (bs4 : List Nat) :
    utf8Decode? (b :: b2 :: b3 :: b4 :: bs4) =
      (if b < 0x80 then (utf8Decode? (b2 :: b3 :: b4 :: bs4)).map (b :: ·)
       else if 0xC2 ≤ b && b ≤ 0xDF then
         if isCont b2 then
           (utf8Decode? (b3 :: b4 :: bs4)).map
             (((b - 0xC0) * 0x40 + (b2 - 0x80)) :: ·)
         else none
       else if 0xE0 ≤ b && b ≤ 0xEF then
         if (if b = 0xE0 then 0xA0 ≤ b2 && b2 ≤ 0xBF
             else if b = 0xED then 0x80 ≤ b2 && b2 ≤ 0x9F
             else isCont b2) && isCont b3 then
           (utf8Decode? (b4 :: bs4)).map
             (((b - 0xE0) * 0x1000 + (b2 - 0x80) * 0x40 + (b3 - 0x80)) :: ·)
         else none
       else if 0xF0 ≤ b && b ≤ 0xF4 then
         if (if b = 0xF0 then 0x90 ≤ b2 && b2 ≤ 0xBF
             else if b = 0xF4 then 0x80 ≤ b2 && b2 ≤ 0x8F
             else isCont b2) && isCont b3 && isCont b4 then
           (utf8Decode? bs4).map
             (((b - 0xF0) * 0x40000 + (b2 - 0x80) * 0x1000
               + (b3 - 0x80) * 0x40 + (b4 - 0x80)) :: ·)
         else none
       else none) := by rfl

theorem utf8Decode?_ascii (b : Nat) (bs : List Nat) (hb : b < 0x80) :
    utf8Decode? (b :: bs) = (utf8Decode? bs).map (b :: ·) := by
  cases bs with
  | nil => rw [utf8Decode?_one, if_pos hb]
  | cons b2 t =>
    cases t with
    | nil => rw [utf8Decode?_two, if_pos hb]
    | cons b3 t2 =>
      cases t2 with
      | nil => rw [utf8Decode?_three, if_pos hb]
      | cons b4 t3 => rw [utf8Decode?_four, if_pos hb]

theorem utf8Decode?_2byte (b b2 : Nat) (bs2 : List Nat) (hb : ¬ b < 0x80)
    (hc : (0xC2 ≤ b && b ≤ 0xDF) = true) :
    utf8Decode? (b :: b2 :: bs2) =
      if isCont b2 then
        (utf8Decode? bs2).map (((b - 0xC0) * 0x40 + (b2 - 0x80)) :: ·)
      else none := by
  cases bs2 with
  | nil => rw [utf8Decode?_two, if_neg hb, if_pos hc]
  | cons b3 t =>
    cases t with
    | nil => rw [utf8Decode?_three, if_neg hb, if_pos hc]
    | cons b4 t2 => rw [utf8Decode?_four, if_neg hb, if_pos hc]

theorem utf8Decode?_3byte (b b2 b3 : Nat) (bs3 : List Nat)
    (hb : ¬ b < 0x80) (hc2 : ¬ (0xC2 ≤ b && b ≤ 0xDF) = true)
    (hc3 : (0xE0 ≤ b && b ≤ 0xEF) = true) :
    utf8Decode? (b :: b2 :: b3 :: bs3) =
      if (if b = 0xE0 then 0xA0 ≤ b2 && b2 ≤ 0xBF
          else if b = 0xED then 0x80 ≤ b2 && b2 ≤ 0x9F
          else isCont b2) && isCont b3 then
        (utf8Decode? bs3).map
          (((b - 0xE0) * 0x1000 + (b2 - 0x80) * 0x40 + (b3 - 0x80)) :: ·)
      else none := by
  cases bs3 with
  | nil => rw [utf8Decode?_three, if_neg hb, if_neg hc2, if_pos hc3]
  | cons b4 t => rw [utf8Decode?_four, if_neg hb, if_neg hc2, if_pos hc3]

theorem utf8Decode?_4byte (b b2 b3 b4 : Nat) (bs4 : List Nat)
    (hb : ¬ b < 0x80) (hc2 : ¬ (0xC2 ≤ b && b ≤ 0xDF) = true)
    (hc3 : ¬ (0xE0 ≤ b && b ≤ 0xEF) = true)
    (hc4 : (0xF0 ≤ b && b ≤ 0xF4) = true) :
    utf8Decode? (b :: b2 :: b3 :: b4 :: bs4) =
      if (if b = 0xF0 then 0x90 ≤ b2 && b2 ≤ 0xBF
          else if b = 0xF4 then 0x80 ≤ b2 && b2 ≤ 0x8F
          else isCont b2) && isCont b3 && isCont b4 then
        (utf8Decode? bs4).map
          (((b - 0xF0) * 0x40000 + (b2 - 0x80) * 0x1000
            + (b3 - 0x80) * 0x40 + (b4 - 0x80)) :: ·)
      else none := by
  rw [utf8Decode?_four, if_neg hb, if_neg hc2, if_neg hc3, if_pos hc4]

/-- Decoding is left-inverted by encoding: a valid byte list is recovered
exactly from its decoded characters. -/
theorem utf8Encode_decode (bs : List Nat) :
    ∀ cs, utf8Decode? bs = some cs → utf8Encode cs = bs := by
  induction bs using utf8Decode?.induct with
  | case1 =>
    intro cs h
    simp only [show utf8Decode? ([] : List Nat) = some [] from rfl,
      Option.some_inj] at h
    subst h
    rfl
  | case2 b bs hb ih =>
    intro cs h
    rw [utf8Decode?_ascii b bs hb, Option.map_eq_some'] at h
    obtain ⟨cs', hdec, hcs⟩ := h
    subst hcs
    rw [utf8Encode_cons, ih cs' hdec]
    simp [encodeChar, hb]
  | case3 b hb hc b2 bs2 hcont ih =>
    intro cs h
    rw [utf8Decode?_2byte b b2 bs2 hb hc, if_pos hcont,
      Option.map_eq_some'] at h
    obtain ⟨cs', hdec, hcs⟩ := h
    subst hcs
    rw [utf8Encode_cons, ih cs' hdec]
    have hbb : 194 ≤ b ∧ b ≤ 223 := by
      rw [Bool.and_eq_true, decide_eq_true_eq, decide_eq_true_eq] at hc
      exact hc
    have hb2 : 128 ≤ b2 ∧ b2 < 192 := by
      rw [isCont, Bool.and_eq_true, decide_eq_true_eq, decide_eq_true_eq]
        at hcont
      exact hcont
    have hlo : ¬ ((b - 192) * 64 + (b2 - 128) < 128) := by omega
    have hhi : (b - 192) * 64 + (b2 - 128) < 2048 := by omega
    simp only [encodeChar, if_neg hlo, if_pos hhi]
    have e1 : 192 + ((b - 192) * 64 + (b2 - 128)) / 64 = b := by omega
    have e2 : 128 + ((b - 192) * 64 + (b2 - 128)) % 64 = b2 := by omega
    rw [e1, e2]
    rfl
  | case4 b hb hc b2 bs2 hcont =>
    intro cs h
    rw [utf8Decode?_2byte b b2 bs2 hb hc, if_neg hcont] at h
    exact Option.noConfusion h
  | case5 b hb hc =>
    intro cs h
    rw [utf8Decode?_one, if_neg hb, if_pos hc] at h
    exact Option.noConfusion h
  | case6 b hb hc2 hc3 b2 b3 bs3 hcond ih =>
    intro cs h
    rw [utf8Decode?_3byte b b2 b3 bs3 hb hc2 hc3, if_pos hcond,
      Option.map_eq_some'] at h
    obtain ⟨cs', hdec, hcs⟩ := h
    subst hcs
    rw [utf8Encode_cons, ih cs' hdec]
    rw [Bool.and_eq_true] at hcond
    obtain ⟨hcb2, hcb3⟩ := hcond
    have hbb : 224 ≤ b ∧ b ≤ 239 := by
      rw [Bool.and_eq_true, decide_eq_true_eq, decide_eq_true_eq] at hc3
      exact hc3
    have hb3 : 128 ≤ b3 ∧ b3 < 192 := by
      rw [isCont, Bool.and_eq_true, decide_eq_true_eq, decide_eq_true_eq]
        at hcb3
      exact hcb3
    have hb2 : (b = 224 → 160 ≤ b2) ∧ 128 ≤ b2 ∧ b2 < 192 := by
      by_cases hbE : b = 224
      · rw [if_pos hbE, Bool.and_eq_true, decide_eq_true_eq,
          decide_eq_true_eq] at hcb2
        exact ⟨fun _ => hcb2.1, by omega⟩
      · rw [if_neg hbE] at hcb2
        by_cases hbD : b = 237
        · rw [if_pos hbD, Bool.and_eq_true, decide_eq_true_eq,
            decide_eq_true_eq] at hcb2
          exact ⟨fun hcontra => absurd hcontra hbE, by omega⟩
        · rw [if_neg hbD, isCont, Bool.and_eq_true, decide_eq_true_eq,
            decide_eq_true_eq] at hcb2
          exact ⟨fun hcontra => absurd hcontra hbE, by omega⟩
    have hD : 2048 ≤ (b - 224) * 4096 + (b2 - 128) * 64 + (b3 - 128) := by
      by_cases hbE : b = 224
      · have := hb2.1 hbE
        omega
      · have hne : b ≠ 224 := hbE
        omega
    have hlo : ¬ ((b - 224) * 4096 + (b2 - 128) * 64 + (b3 - 128) < 128) := by
      omega
    have hmid : ¬ ((b - 224) * 4096 + (b2 - 128) * 64 + (b3 - 128) < 2048) :=
      by omega
    have hhi : (b - 224) * 4096 + (b2 - 128) * 64 + (b3 - 128) < 65536 := by
      omega
    simp only [encodeChar, if_neg hlo, if_neg hmid, if_pos hhi]
    have e1 : 224 + ((b - 224) * 4096 + (b2 - 128) * 64 + (b3 - 128)) / 4096
        = b := by omega
    have e2 : 128 + ((b - 224) * 4096 + (b2 - 128) * 64 + (b3 - 128)) / 64
        % 64 = b2 := by omega
    have e3 : 128 + ((b - 224) * 4096 + (b2 - 128) * 64 + (b3 - 128)) % 64
        = b3 := by omega
    rw [e1, e2, e3]
    rfl
  | case7 b hb hc2 hc3 b2 b3 bs3 hcond =>
    intro cs h
    rw [utf8Decode?_3byte b b2 b3 bs3 hb hc2 hc3, if_neg hcond] at h
    exact Option.noConfusion h
  | case8 b bs hb hc2 hc3 hne =>
    intro cs h
    cases bs with
    | nil =>
      rw [utf8Decode?_one, if_neg hb, if_neg hc2, if_pos hc3] at h
      exact Option.noConfusion h
    | cons b2 t =>
      cases t with
      | nil =>
        rw [utf8Decode?_two, if_neg hb, if_neg hc2, if_pos hc3] at h
        exact Option.noConfusion h
      | cons b3 t2 => exact (hne b2 b3 t2 rfl).elim
  | case9 b hb hc2 hc3 hc4 b2 b3 b4 bs4 hcond ih =>
    intro cs h
    rw [utf8Decode?_4byte b b2 b3 b4 bs4 hb hc2 hc3 hc4, if_pos hcond,
      Option.map_eq_some'] at h
    obtain ⟨cs', hdec, hcs⟩ := h
    subst hcs
    rw [utf8Encode_cons, ih cs' hdec]
    rw [Bool.and_eq_true, Bool.and_eq_true] at hcond
    obtain ⟨⟨hcb2, hcb3⟩, hcb4⟩ := hcond
    have hbb : 240 ≤ b ∧ b ≤ 244 := by
      rw [Bool.and_eq_true, decide_eq_true_eq, decide_eq_true_eq] at hc4
      exact hc4
    have hb3 : 128 ≤ b3 ∧ b3 < 192 := by
      rw [isCont, Bool.and_eq_true, decide_eq_true_eq, decide_eq_true_eq]
        at hcb3
      exact hcb3
    have hb4 : 128 ≤ b4 ∧ b4 < 192 := by
      rw [isCont, Bool.and_eq_true, decide_eq_true_eq, decide_eq_true_eq]
        at hcb4
      exact hcb4
    have hb2 : (b = 240 → 144 ≤ b2) ∧ 128 ≤ b2 ∧ b2 < 192 := by
      by_cases hbE : b = 240
      · rw [if_pos hbE, Bool.and_eq_true, decide_eq_true_eq,
          decide_eq_true_eq] at hcb2
        exact ⟨fun _ => hcb2.1, by omega⟩
      · rw [if_neg hbE] at hcb2
        by_cases hbD : b = 244
        · rw [if_pos hbD, Bool.and_eq_true, decide_eq_true_eq,
            decide_eq_true_eq] at hcb2
          exact ⟨fun hcontra => absurd hcontra hbE, by omega⟩
        · rw [if_neg hbD, isCont, Bool.and_eq_true, decide_eq_true_eq,
            decide_eq_true_eq] at hcb2
          exact ⟨fun hcontra => absurd hcontra hbE, by omega⟩
    have hD : 65536 ≤ (b - 240) * 262144 + (b2 - 128) * 4096
        + (b3 - 128) * 64 + (b4 - 128) := by
      by_cases hbE : b = 240
      · have := hb2.1 hbE
        omega
      · have hne : b ≠ 240 := hbE
        omega
    have hlo : ¬ ((b - 240) * 262144 + (b2 - 128) * 4096 + (b3 - 128) * 64
        + (b4 - 128) < 128) := by omega
    have hmid : ¬ ((b - 240) * 262144 + (b2 - 128) * 4096 + (b3 - 128) * 64
        + (b4 - 128) < 2048) := by omega
    have hmid2 : ¬ ((b - 240) * 262144 + (b2 - 128) * 4096 + (b3 - 128) * 64
        + (b4 - 128) < 65536) := by omega
    simp only [encodeChar, if_neg hlo, if_neg hmid, if_neg hmid2]
    have e1 : 240 + ((b - 240) * 262144 + (b2 - 128) * 4096
        + (b3 - 128) * 64 + (b4 - 128)) / 262144 = b := by omega
    have e2 : 128 + ((b - 240) * 262144 + (b2 - 128) * 4096
        + (b3 - 128) * 64 + (b4 - 128)) / 4096 % 64 = b2 := by omega
    have e3 : 128 + ((b - 240) * 262144 + (b2 - 128) * 4096
        + (b3 - 128) * 64 + (b4 - 128)) / 64 % 64 = b3 := by omega
    have e4 : 128 + ((b - 240) * 262144 + (b2 - 128) * 4096
        + (b3 - 128) * 64 + (b4 - 128)) % 64 = b4 := by omega
    rw [e1, e2, e3, e4]
    rfl
  | case10 b hb hc2 hc3 hc4 b2 b3 b4 bs4 hcond =>
    intro cs h
    rw [utf8Decode?_4byte b b2 b3 b4 bs4 hb hc2 hc3 hc4, if_neg hcond] at h
    exact Option.noConfusion h
  | case11 b bs hb hc2 hc3 hc4 hne =>
    intro cs h
    cases bs with
    | nil =>
      rw [utf8Decode?_one, if_neg hb, if_neg hc2, if_neg hc3, if_pos hc4]
        at h
      exact Option.noConfusion h
    | cons b2 t =>
      cases t with
      | nil =>
        rw [utf8Decode?_two, if_neg hb, if_neg hc2, if_neg hc3, if_pos hc4]
          at h
        exact Option.noConfusion h
      | cons b3 t2 =>
        cases t2 with
        | nil =>
          rw [utf8Decode?_three, if_neg hb, if_neg hc2, if_neg hc3,
            if_pos hc4] at h
          exact Option.noConfusion h
        | cons b4 t3 => exact (hne b2 b3 b4 t3 rfl).elim
  | case12 b bs hb hc2 hc3 hc4 =>
    intro cs h
    cases bs with
    | nil =>
      rw [utf8Decode?_one, if_neg hb, if_neg hc2, if_neg hc3, if_neg hc4]
        at h
      exact Option.noConfusion h
    | cons b2 t =>
      cases t with
      | nil =>
        rw [utf8Decode?_two, if_neg hb, if_neg hc2, if_neg hc3, if_neg hc4]
          at h
        exact Option.noConfusion h
      | cons b3 t2 =>
        cases t2 with
        | nil =>
          rw [utf8Decode?_three, if_neg hb, if_neg hc2, if_neg hc3,
            if_neg hc4] at h
          exact Option.noConfusion h
        | cons b4 t3 =>
          rw [utf8Decode?_four, if_neg hb, if_neg hc2, if_neg hc3,
            if_neg hc4] at h
          exact Option.noConfusion h

theorem outCount_append_self (ch : Channel) (out : List (Channel × List Nat))
    (x : List Nat) : outCount ch (out ++ [(ch, x)]) = outCount ch out + 1 := by
  simp [outCount]

theorem outCount_append_other (ch ch' : Channel) (h : ¬ ch = ch')
    (out : List (Channel × List Nat)) (x : List Nat) :
    outCount ch' (out ++ [(ch, x)]) = outCount ch' out := by
  simp [outCount, h]

/-- One `--one-message` scheduler step preserves the invariant. -/
theorem sysInv_step {s s' : Sys} (hI : SysInv s) (hstep : SysStep true s s') :
    SysInv s' := by
  obtain ⟨h1, h2, h3, h4⟩ := hI
  cases hstep with
  | dgRecv d rest hex hdone hpend =>
    refine ⟨fun hcon => absurd hcon (by simp), ?_, ?_, ?_⟩
    · show outCount .dgram (s.output ++ [(.dgram, d ++ [10])]) ≤ 1
      rw [outCount_append_self, h1 hdone]
    · intro hst
      show outCount .stream (s.output ++ [(.dgram, d ++ [10])]) = 0
      rw [outCount_append_other Channel.dgram Channel.stream (by simp)]
      exact h3 hst
    · show outCount .stream (s.output ++ [(.dgram, d ++ [10])]) ≤ 1
      rw [outCount_append_other Channel.dgram Channel.stream (by simp)]
      exact h4
  | dgErr rest hex hdone hpend =>
    exact ⟨fun hcon => absurd hcon (by simp), h2, h3, h4⟩
  | stRecv chunks rest hex hdone hpend =>
    refine ⟨?_, ?_, fun hcon => absurd hcon (by simp), ?_⟩
    · intro hdg
      show outCount .dgram (s.output ++ [(.stream, chunks.flatten ++ [10])])
        = 0
      rw [outCount_append_other Channel.stream Channel.dgram (by simp)]
      exact h1 hdg
    · show outCount .dgram (s.output ++ [(.stream, chunks.flatten ++ [10])])
        ≤ 1
      rw [outCount_append_other Channel.stream Channel.dgram (by simp)]
      exact h2
    · show outCount .stream (s.output ++ [(.stream, chunks.flatten ++ [10])])
        ≤ 1
      rw [outCount_append_self, h3 hdone]
  | stReadErr rest hex hdone hpend =>
    exact ⟨h1, h2, h3, h4⟩
  | stAcceptErr rest hex hdone hpend =>
    exact ⟨h1, h2, fun hcon => absurd hcon (by simp), h4⟩
  | procExit hex hdone =>
    exact ⟨h1, h2, h3, h4⟩

/-- The invariant holds in every state the `--one-message` scheduler can
reach. -/
theorem sysInv_reach {s0 s : Sys} (h0 : SysInv s0)
    (h : SysReach true s0 s) : SysInv s := by
  induction h with
  | refl => exact h0
  | tail hab hbc ih => exact sysInv_step ih hbc

/-- Per-line specification of the stdin forward loop on all-valid input:
each sent datagram is its line trimmed of the trailing-whitespace suffix
(and nothing else). -/
theorem stdinLinesGo_sends_spec (lines : List (List Nat)) :
    ∀ oks : List Bool, (∀ l ∈ lines, ∃ cs, utf8Decode? l = some cs) →
      List.Forall₂
        (fun (l : List Nat) (s : List Nat) => ∃ cs ws,
          utf8Decode? l = some cs ∧ s = utf8Encode (trimEnd cs) ∧
          l = s ++ utf8Encode ws ∧ ws.all isWhitespaceChar = true)
        lines (stdinLinesGo lines oks).sends := by
  induction lines with
  | nil => intro oks _; exact List.Forall₂.nil
  | cons line rest ih =>
    intro oks hvalid
    obtain ⟨cs, hdec⟩ := hvalid line (List.mem_cons_self _ _)
    rw [stdinLinesGo_cons_valid line rest oks cs hdec]
    refine List.Forall₂.cons ?_
      (ih oks.tail fun l hl => hvalid l (List.mem_cons_of_mem _ hl))
    refine ⟨cs, (cs.reverse.takeWhile isWhitespaceChar).reverse, hdec, rfl,
      ?_, (trimEnd_decomp cs).2⟩
    rw [← utf8Encode_decode line cs hdec]
    conv_lhs => rw [(trimEnd_decomp cs).1]
    exact utf8Encode_append _ _

/-! ## Claims -/

/-- Claim C1 counterexample: the first-finishing loop reports an error — a
datagram receive failure, the only active finisher in a `--unidirectional`
run with no stream activity — yet the process exit code is `0`, not
non-zero as the claim requires: every spawned task returns `()`, so
`select_all(..).0?` cannot carry the loop's error. -/
theorem C1_exit_code_cex :
    (datagramLoop false [DgEvent.err]).exit = some .errored ∧
    processExit true ⟨0, false, false, true, false⟩
      ⟨[DgEvent.err], [], [], []⟩ = some 0 :=
  ⟨rfl, rfl⟩

/-- Claim C1, amended: the process exits non-zero exactly when startup
(client construction, logger installation, session establishment) fails;
once startup succeeds, any terminating run exits `0`, no matter whether the
first-finishing loop completed gracefully or stopped on a receive/accept
error. -/
theorem C1_exit_code_amended (startupOk : Bool) (args : Args)
    (inp : RunInputs) (c : Nat) (h : processExit startupOk args inp = some c) :
    c = 0 ↔ startupOk = true := by
  cases startupOk with
  | false =>
    simp only [processExit, Bool.not_false, if_true, Option.some_inj] at h
    subst h
    simp
  | true =>
    simp only [processExit, Bool.not_true, if_false] at h
    constructor
    · intro _; rfl
    · intro _
      by_cases hf : loopFinishes args inp = true
      · rw [if_pos hf] at h; exact (Option.some_inj.mp h).symm
      · rw [if_neg hf] at h; exact absurd h (by simp)

/-- Witness for C1 (amended): a unidirectional run whose datagram loop hits
a receive error exits with code `0`. -/
theorem C1_exit_code_amended_witness :
    processExit true ⟨0, false, false, true, false⟩
      ⟨[DgEvent.err], [], [], []⟩ = some 0 ∧ (0 = 0 ↔ true = true) :=
  ⟨rfl, C1_exit_code_amended true ⟨0, false, false, true, false⟩
    ⟨[DgEvent.err], [], [], []⟩ 0 rfl⟩

/-- Claim C2: session-level errors (datagram receive failure, stream accept
failure) terminate the owning loop with an errored exit, while
message-level errors (one stream's `read_to_end` failure, one datagram
send failure) are only logged: the stream loop continues with the next
accept, and the stdin loop's sends and termination are unchanged by send
failures. -/
theorem C2_error_policy :
    (∀ (om : Bool) (rest : List DgEvent),
      datagramLoop om (.err :: rest) = ⟨[], [.datagramError], some .errored⟩) ∧
    (∀ (om : Bool) (rest : List StEvent),
      streamLoop om (.acceptErr :: rest) =
        ⟨[], [.streamAcceptError], some .errored⟩) ∧
    (∀ (om : Bool) (rest : List StEvent),
      streamLoop om (.acceptOk .err :: rest) =
        ⟨(streamLoop om rest).out,
         .streamReadError :: (streamLoop om rest).log,
         (streamLoop om rest).exit⟩) ∧
    (∀ (input : List Nat) (oks oks' : List Bool),
      (stdinLoop input oks).sends = (stdinLoop input oks').sends ∧
      (stdinLoop input oks).exit = (stdinLoop input oks').exit) ∧
    (∀ (line : List Nat) (cs : List Nat) (rest : List (List Nat))
        (oks : List Bool), utf8Decode? line = some cs →
      (stdinLinesGo (line :: rest) (false :: oks)).log =
        .sendError :: (stdinLinesGo rest oks).log) :=
  ⟨fun _ _ => rfl, fun _ _ => rfl, fun _ _ => rfl,
   fun input oks oks' => stdinLinesGo_indep (splitLines input) oks oks',
   fun line cs rest oks h => by
     rw [stdinLinesGo_cons_valid line rest (false :: oks) cs h]
     simp⟩

/-- Witness for C2: concrete instances — a datagram receive error ends
that loop as errored, and a failed send of the line `"a"` is logged while
the loop goes on. -/
theorem C2_error_policy_witness :
    datagramLoop false [DgEvent.err] =
      ⟨[], [.datagramError], some .errored⟩ ∧
    (stdinLinesGo [[97]] [false]).log =
      .sendError :: (stdinLinesGo [] []).log :=
  ⟨C2_error_policy.1 false [], C2_error_policy.2.2.2.2 [97] [97] [] [] rfl⟩

/-- Claim C5: every line the stream loop writes to stdout is a complete
drained message — the concatenation of everything the peer wrote on one
accepted stream — followed by one newline; in particular a stream delivered
as `b"ab"` then `b"cd"` yields the single output line `abcd\n`. -/
theorem C5_stream_full_drain :
    (∀ (om : Bool) (evs : List StEvent) (o : List Nat),
      o ∈ (streamLoop om evs).out →
      ∃ chunks, StEvent.acceptOk (.ok chunks) ∈ evs ∧
        o = chunks.flatten ++ [10]) ∧
    (∀ om : Bool,
      (streamLoop om [.acceptOk (.ok [[97, 98], [99, 100]])]).out =
        [[97, 98, 99, 100, 10]]) := by
  constructor
  · intro om evs
    induction evs with
    | nil => intro o ho; exact absurd ho (by simp [streamLoop])
    | cons e rest ih =>
      intro o ho
      cases e with
      | acceptOk r =>
        cases r with
        | ok chunks =>
          cases om with
          | true =>
            simp only [streamLoop, eq_self_iff_true, if_true,
              List.mem_singleton] at ho
            exact ⟨chunks, List.mem_cons_self _ _, ho⟩
          | false =>
            simp only [streamLoop, Bool.false_eq_true, if_false,
              List.mem_cons] at ho
            rcases ho with hh | hh
            · exact ⟨chunks, List.mem_cons_self _ _, hh⟩
            · obtain ⟨cks, hmem, rfl⟩ := ih o hh
              exact ⟨cks, List.mem_cons_of_mem _ hmem, rfl⟩
        | err =>
          obtain ⟨cks, hmem, rfl⟩ := ih o ho
          exact ⟨cks, List.mem_cons_of_mem _ hmem, rfl⟩
      | acceptErr => exact absurd ho (by simp [streamLoop])
  · intro om
    cases om <;> rfl

/-- Witness for C5: the two-chunk stream `ab`/`cd` produces the single
combined message `abcd\n`. -/
theorem C5_stream_full_drain_witness :
    ∃ chunks,
      StEvent.acceptOk (.ok chunks) ∈
        [StEvent.acceptOk (.ok [[97, 98], [99, 100]])] ∧
      [97, 98, 99, 100, 10] = chunks.flatten ++ [10] :=
  C5_stream_full_drain.1 false [.acceptOk (.ok [[97, 98], [99, 100]])]
    [97, 98, 99, 100, 10] (by decide)

/-- Claim C6: each received datagram is echoed to stdout as its exact
payload followed by one newline, in arrival order on the datagram channel
(shown for an error-free arrival sequence, and for the first datagram under
`--one-message`). -/
theorem C6_datagram_echo :
    (∀ ds : List (List Nat),
      (datagramLoop false (ds.map DgEvent.ok)).out =
        ds.map (fun d => d ++ [10])) ∧
    (∀ (d : List Nat) (rest : List DgEvent),
      (datagramLoop true (.ok d :: rest)).out = [d ++ [10]]) := by
  refine ⟨fun ds => ?_, fun d rest => rfl⟩
  induction ds with
  | nil => rfl
  | cons d rest ih => simp [List.map_cons, datagramLoop, ih]

/-- Claim C7 counterexample: with `-q` set but `WEBTRANSCAT_EARLY_LOG`
present in the environment (and `RUST_LOG` absent), `main` installs the
logger before consulting `quiet`, so error-level diagnostics are emitted —
the quiet flag does not suppress them. -/
theorem C7_quiet_cex :
    mainLogConfig true none true 0 = .filtered .warn ∧
    emitsErrorDiagnostics (mainLogConfig true none true 0) = true :=
  ⟨rfl, rfl⟩

/-- Claim C7, amended: the quiet flag suppresses all diagnostics (no logger
is ever installed) in every environment in which `WEBTRANSCAT_EARLY_LOG` is
unset — whatever `RUST_LOG` and the verbosity are; when
`WEBTRANSCAT_EARLY_LOG` is set, the logger is installed with verbosity `0`
before `quiet` is read, and diagnostics are not suppressed. -/
theorem C7_quiet_amended :
    (∀ (rustLog : Option Bool) (verbosity : Nat),
      mainLogConfig false rustLog true verbosity = .uninitialized ∧
      emitsErrorDiagnostics (mainLogConfig false rustLog true verbosity)
        = false) ∧
    (∀ (rustLog : Option Bool) (verbosity : Nat),
      mainLogConfig true rustLog true verbosity =
        setup_env_logger rustLog 0) :=
  ⟨fun _ _ => ⟨rfl, rfl⟩, fun _ _ => rfl⟩

/-- Claim C8: with `--unidirectional` the stdin forward task is not
spawned, and the datagrams sent to the remote session are the same — none —
whatever bytes are presented on local input. -/
theorem C8_unidirectional (args : Args) (h : args.unidirectional = true) :
    TaskKind.stdinForward ∉ spawnedTasks args ∧
    ∀ (s1 : List Nat) (k1 : List Bool) (s2 : List Nat) (k2 : List Bool),
      sentDatagrams args s1 k1 = sentDatagrams args s2 k2 := by
  refine ⟨?_, fun s1 k1 s2 k2 => by simp [sentDatagrams, h]⟩
  simp [spawnedTasks, h]

/-- Witness for C8: a concrete unidirectional run — no stdin task, and the
inputs `"h\n"` versus nothing yield identical (empty) outbound traffic. -/
theorem C8_unidirectional_witness :
    TaskKind.stdinForward ∉ spawnedTasks ⟨0, false, false, true, false⟩ ∧
    sentDatagrams ⟨0, false, false, true, false⟩ [104, 10] [true] =
      sentDatagrams ⟨0, false, false, true, false⟩ [] [] :=
  ⟨(C8_unidirectional ⟨0, false, false, true, false⟩ rfl).1,
   (C8_unidirectional ⟨0, false, false, true, false⟩ rfl).2 [104, 10] [true]
     [] []⟩

/-- Claim C9: under `--one-message`, a stream whose `read_to_end` fails is
only logged — the loop keeps accepting, unaffected by the flag — and the
loop reaches its completed exit only if some stream was read successfully. -/
theorem C9_one_message_read_failure :
    (∀ rest : List StEvent,
      streamLoop true (.acceptOk .err :: rest) =
        ⟨(streamLoop true rest).out,
         .streamReadError :: (streamLoop true rest).log,
         (streamLoop true rest).exit⟩) ∧
    (∀ (chunks : List (List Nat)) (rest : List StEvent),
      streamLoop true (.acceptOk (.ok chunks) :: rest) =
        ⟨[chunks.flatten ++ [10]], [], some .completed⟩) ∧
    (∀ evs : List StEvent, (streamLoop true evs).exit = some .completed →
      ∃ chunks, StEvent.acceptOk (.ok chunks) ∈ evs) := by
  refine ⟨fun _ => rfl, fun _ _ => rfl, fun evs => ?_⟩
  induction evs with
  | nil => intro h; exact absurd h (by simp [streamLoop])
  | cons e rest ih =>
    intro h
    cases e with
    | acceptOk r =>
      cases r with
      | ok chunks => exact ⟨chunks, List.mem_cons_self _ _⟩
      | err =>
        obtain ⟨cks, hmem⟩ := ih h
        exact ⟨cks, List.mem_cons_of_mem _ hmem⟩
    | acceptErr => exact absurd h (by simp [streamLoop])

/-- Witness for C9: a run in which a failed read is followed by a
successful one — the loop completes, and the completed exit indeed comes
from a successfully read stream. -/
theorem C9_one_message_read_failure_witness :
    (streamLoop true [.acceptOk .err, .acceptOk (.ok [[97]])]).exit =
      some .completed ∧
    ∃ chunks, StEvent.acceptOk (.ok chunks) ∈
      [StEvent.acceptOk .err, StEvent.acceptOk (.ok [[97]])] :=
  ⟨rfl, C9_one_message_read_failure.2.2
    [.acceptOk .err, .acceptOk (.ok [[97]])] rfl⟩

/-- Claim C10: a whitespace-only input line — including the empty line,
just a terminator — is not skipped: a zero-length datagram is handed to the
session's send path for it. -/
theorem C10_whitespace_line (input : List Nat) (oks : List Bool)
    (line : List Nat) (rest : List (List Nat)) (cs : List Nat)
    (hsplit : splitLines input = line :: rest)
    (hdec : utf8Decode? line = some cs)
    (hws : cs.all isWhitespaceChar = true) :
    (stdinLoop input oks).sends.head? = some [] := by
  rw [stdinLoop, hsplit, stdinLinesGo_cons_valid line rest oks cs hdec]
  simp [trimEnd_all_whitespace cs hws, utf8Encode]

/-- Witness for C10: the empty line (input `"\n"`) is forwarded as the
zero-length datagram. -/
theorem C10_whitespace_line_witness :
    (stdinLoop [10] []).sends.head? = some [] :=
  C10_whitespace_line [10] [] [10] [] [10] rfl rfl rfl

/-- Claim C3 counterexample: with `--one-message`, a run in which the
remote delivers one datagram (`a`) and one stream (`b`) can reach — via
the schedule datagram-receive, stream-receive, process-exit — an exited
state whose stdout carries two messages, not exactly one: between one
loop's `break` and `main` returning from `select_all`, the other loop can
process and write its own first message. -/
theorem C3_one_message_cex :
    SysReach true (startSys [.ok [97]] [.acceptOk (.ok [[98]])])
      ⟨[], [], true, true, [(.dgram, [97, 10]), (.stream, [98, 10])],
        true⟩ ∧
    ¬ ([(Channel.dgram, [97, 10]), (Channel.stream, [98, 10])] :
        List (Channel × List Nat)).length = 1 := by
  refine ⟨?_, by decide⟩
  refine Relation.ReflTransGen.head
    (SysStep.dgRecv _ [97] [] rfl rfl rfl) ?_
  refine Relation.ReflTransGen.head
    (SysStep.stRecv _ [[98]] [] rfl rfl rfl) ?_
  exact Relation.ReflTransGen.single (SysStep.procExit _ rfl (Or.inl rfl))

/-- Claim C3, amended: with `--one-message`, each receive loop writes at
most one message before stopping — so at most one datagram message and at
most one stream message (up to two in total, not exactly one) appear on
stdout in any reachable state — and whenever the process terminates after
a successful startup it exits with code `0`. -/
theorem C3_one_message_amended :
    (∀ (dg : List DgEvent) (st : List StEvent) (s : Sys),
      SysReach true (startSys dg st) s →
      outCount .dgram s.output ≤ 1 ∧ outCount .stream s.output ≤ 1) ∧
    (∀ (args : Args) (inp : RunInputs),
      processExit true args inp = some 0 ∨
      processExit true args inp = none) := by
  constructor
  · intro dg st s h
    have h0 : SysInv (startSys dg st) :=
      ⟨fun _ => rfl, by simp [outCount, startSys], fun _ => rfl,
       by simp [outCount, startSys]⟩
    have hI := sysInv_reach h0 h
    exact ⟨hI.2.1, hI.2.2.2⟩
  · intro args inp
    by_cases hf : loopFinishes args inp = true
    · left; simp [processExit, hf]
    · right; simp [processExit, hf]

/-- Witness for C3 (amended): the start state itself, reached by the empty
schedule, and a concrete `--one-message` argument vector. -/
theorem C3_one_message_amended_witness :
    (outCount .dgram (startSys [] []).output ≤ 1 ∧
     outCount .stream (startSys [] []).output ≤ 1) ∧
    (processExit true ⟨0, false, false, false, true⟩ ⟨[], [], [], []⟩
        = some 0 ∨
     processExit true ⟨0, false, false, false, true⟩ ⟨[], [], [], []⟩
        = none) :=
  ⟨C3_one_message_amended.1 [] [] _ Relation.ReflTransGen.refl,
   C3_one_message_amended.2 ⟨0, false, false, false, true⟩ ⟨[], [], [], []⟩⟩

/-- Claim C4 counterexample: the binary (non-UTF-8) input line
`[0xFF, 0x0A]` is not forwarded as the datagram `[0xFF]` that the claim
demands — nothing is sent at all, and the stdin loop terminates with a
read error, because `read_line` rejects invalid UTF-8. -/
theorem C4_stdin_trim_cex :
    (stdinLoop [255, 10] []).sends = [] ∧
    (stdinLoop [255, 10] []).exit = .readErr ∧
    ¬ (stdinLoop [255, 10] []).sends = [[255]] :=
  ⟨rfl, rfl, by decide⟩

/-- Claim C4, amended: when every input line is valid UTF-8, each line is
forwarded as exactly its own bytes with the trailing-whitespace suffix
(line terminator included) removed and nothing else altered; a non-UTF-8
line is never forwarded — the read fails and the loop stops. -/
theorem C4_stdin_trim_amended (input : List Nat) (oks : List Bool)
    (hvalid : ∀ l ∈ splitLines input, ∃ cs, utf8Decode? l = some cs) :
    List.Forall₂
      (fun (l : List Nat) (s : List Nat) => ∃ cs ws,
        utf8Decode? l = some cs ∧ s = utf8Encode (trimEnd cs) ∧
        l = s ++ utf8Encode ws ∧ ws.all isWhitespaceChar = true)
      (splitLines input) (stdinLoop input oks).sends :=
  stdinLinesGo_sends_spec (splitLines input) oks hvalid

/-- Witness for C4 (amended): on the single line `"h \n"` the sent
datagram is `"h"`, with the whitespace suffix `" \n"` removed. -/
theorem C4_stdin_trim_amended_witness :
    List.Forall₂
      (fun (l : List Nat) (s : List Nat) => ∃ cs ws,
        utf8Decode? l = some cs ∧ s = utf8Encode (trimEnd cs) ∧
        l = s ++ utf8Encode ws ∧ ws.all isWhitespaceChar = true)
      (splitLines [104, 32, 10]) (stdinLoop [104, 32, 10] []).sends := by
  refine C4_stdin_trim_amended [104, 32, 10] [] ?_
  intro l hl
  simp only [show splitLines [104, 32, 10] = [[104, 32, 10]] from rfl,
    List.mem_singleton] at hl
  subst hl
  exact ⟨[104, 32, 10], rfl⟩

end Webtranscat
